import Mathlib

/-!
Shallow embedding of the cross-chain relay pipeline (src/script.py) and the
health checker (src/health.py).

Block numbers, heights and confirmation counts are Python ints, embedded as
Int.  The scanner's pending-event dictionary is embedded as an association
list keyed by transaction hash with insert-if-absent semantics; the
processor's processed-tx set is embedded as a duplicate-free list with
idempotent insertion.  Fallible external calls (log fetch, transaction
submission, receipt wait, health probe) are embedded as Except-valued inputs
supplied by the environment.
-/

namespace PoolsCR

/-- A decoded source-chain event log, as consumed from web3 get_logs:
transaction hash, originating block number, and decoded args. -/
structure LogEvent where
  txHash : String
  blockNumber : Int
  recipient : String
  amount : Int
deriving DecidableEq, Repr

/-- The mutable state of EventScanner: last_scanned_block cursor,
the pending_events dict (association list keyed by tx hash), and the
confirmations threshold. -/
structure ScannerState where
  lastScannedBlock : Int
  pendingEvents : List (String × LogEvent)
  confirmations : Int
deriving DecidableEq, Repr

/-- EventScanner._load_last_scanned_block: fileContent is none when the state
file is absent or not valid JSON (FileNotFoundError / JSONDecodeError),
some none when the JSON object lacks the last_scanned_block key, and
some (some v) when the key is present with value v; blockNumber is the
current chain height w3.eth.block_number. -/
def load_last_scanned_block (fileContent : Option (Option Int)) (blockNumber : Int) : Int :=
  match fileContent with
  | none => blockNumber - 1
  | some none => blockNumber - 1
  | some (some v) => v

/-- Insertion step of the scan loop over fetched logs: the event is added to
pending_events only if its tx hash is not already a key. -/
def add_pending (pending : List (String × LogEvent)) (e : LogEvent) :
    List (String × LogEvent) :=
  if pending.any fun p => p.1 = e.txHash then pending
  else pending ++ [(e.txHash, e)]

/-- EventScanner._check_confirmations: collects every pending event whose
age current_block - blockNumber meets the confirmations threshold, then
deletes exactly those entries from pending_events. -/
def check_confirmations (s : ScannerState) (current_block : Int) :
    List LogEvent × ScannerState :=
  let confirmed :=
    (s.pendingEvents.filter fun p =>
      s.confirmations ≤ current_block - p.2.blockNumber).map Prod.snd
  let remaining :=
    s.pendingEvents.filter fun p =>
      ¬ s.confirmations ≤ current_block - p.2.blockNumber
  (confirmed, ⟨s.lastScannedBlock, remaining, s.confirmations⟩)

/-- The from_block of a scan pass: last_scanned_block + 1. -/
def scan_from_block (lastScanned : Int) : Int :=
  lastScanned + 1

/-- The to_block of a scan pass: min(latest_block, from_block + 100). -/
def scan_to_block (lastScanned latest : Int) : Int :=
  min latest (scan_from_block lastScanned + 100)

/-- Result of one EventScanner.scan_and_process_blocks pass: the returned
confirmed events, the scanner state afterwards, and the persisted
last_scanned_block value in the state file. -/
structure ScanResult where
  confirmedEvents : List LogEvent
  scanner : ScannerState
  persisted : Int
deriving DecidableEq, Repr

/-- EventScanner.scan_and_process_blocks.  persisted is the cursor value
currently in the state file; latest_block is w3.eth.block_number; get_logs
is the contract get_logs call, which may raise (Except.error). -/
def scan_and_process_blocks (s : ScannerState) (persisted : Int) (latest_block : Int)
    (get_logs : Int → Int → Except Unit (List LogEvent)) : ScanResult :=
  if latest_block ≤ s.lastScannedBlock then ⟨[], s, persisted⟩
  else
    match get_logs (scan_from_block s.lastScannedBlock)
        (scan_to_block s.lastScannedBlock latest_block) with
    | Except.error _ => ⟨[], s, persisted⟩
    | Except.ok logs =>
      ⟨(check_confirmations
          ⟨s.lastScannedBlock, logs.foldl add_pending s.pendingEvents, s.confirmations⟩
          latest_block).1,
       ⟨scan_to_block s.lastScannedBlock latest_block,
        (check_confirmations
          ⟨s.lastScannedBlock, logs.foldl add_pending s.pendingEvents, s.confirmations⟩
          latest_block).2.pendingEvents,
        s.confirmations⟩,
       scan_to_block s.lastScannedBlock latest_block⟩

/-- A destination-chain transaction receipt as returned by
wait_for_transaction_receipt: status (1 on success) and inclusion block. -/
structure Receipt where
  status : Int
  blockNumber : Int
deriving DecidableEq, Repr

/-- The fallible external steps of one relay_mint_transaction call, all
inside its single try block: extraction of recipient / amount /
source tx hash from the event args (may raise KeyError), the
nonce-fetch + build + sign + send_raw_transaction sequence (yields the
destination tx hash), and wait_for_transaction_receipt. -/
structure RelayEnv where
  extractArgs : Except Unit (String × Int × String)
  submitTx : Except Unit String
  waitReceipt : Except Unit Receipt

/-- TransactionRelayer.relay_mint_transaction: returns the destination tx
hash on a status-1 receipt, and None on a status-0 receipt or on any
exception raised by any step (the except clause catches everything). -/
def relay_mint_transaction (env : RelayEnv) : Option String :=
  match env.extractArgs with
  | Except.error _ => none
  | Except.ok _ =>
    match env.submitTx with
    | Except.error _ => none
    | Except.ok txh =>
      match env.waitReceipt with
      | Except.error _ => none
      | Except.ok receipt =>
        if receipt.status = 1 then some txh else none

/-- Python set.add on the processed_txs_cache, embedded on lists:
idempotent insertion. -/
def set_add (c : List String) (x : String) : List String :=
  if x ∈ c then c else c ++ [x]

/-- One iteration of the processor's for-loop over confirmed events.  The
accumulator carries the processed_txs_cache and the list of tx hashes for
which relay_mint_transaction was actually invoked.  An event whose hash is
already cached is skipped (continue); otherwise the relay is attempted and
the hash is cached only on success. -/
def relay_step (relay : LogEvent → Option String)
    (acc : List String × List String) (e : LogEvent) : List String × List String :=
  if e.txHash ∈ acc.1 then acc
  else
    match relay e with
    | some _ => (set_add acc.1 e.txHash, acc.2 ++ [e.txHash])
    | none => (acc.1, acc.2 ++ [e.txHash])

/-- The processor's for-loop over one cycle's confirmed events: returns the
updated processed_txs_cache and the hashes of attempted relays. -/
def process_confirmed (cache : List String) (relay : LogEvent → Option String)
    (events : List LogEvent) : List String × List String :=
  events.foldl (relay_step relay) (cache, [])

/-- The fixed pause used by CrossChainProcessor.run when a health check
fails: time.sleep(60). -/
def HEALTH_BACKOFF_SECONDS : Nat := 60

/-- The default SCAN_INTERVAL_SECONDS from ConfigManager: 15. -/
def SCAN_INTERVAL_SECONDS_DEFAULT : Nat := 15

/-- The default CONFIRMATION_BLOCKS from ConfigManager: 12. -/
def CONFIRMATION_BLOCKS_DEFAULT : Int := 12

/-- The external world of one processor cycle: the two RPC health check
outcomes, the source chain height, the get_logs behaviour, and for each
event the outcomes of the relay's external steps. -/
structure CycleEnv where
  sourceHealthy : Bool
  destHealthy : Bool
  latestBlock : Int
  getLogs : Int → Int → Except Unit (List LogEvent)
  relayEnv : LogEvent → RelayEnv

/-- Observable outcome of one iteration of CrossChainProcessor.run:
whether scan_and_process_blocks ran, which relays were attempted, how long
the loop sleeps before the next cycle, and the state afterwards. -/
structure CycleResult where
  scanned : Bool
  relayAttempts : List String
  sleepSeconds : Nat
  cache : List String
  scanner : ScannerState
  persisted : Int

/-- One iteration of CrossChainProcessor.run: if either RPC endpoint is
unhealthy the cycle sleeps 60 seconds and does nothing else; otherwise it
scans, relays each confirmed event not already cached, and sleeps the
configured scan interval. -/
def run_cycle (cache : List String) (scanner : ScannerState) (persisted : Int)
    (scanInterval : Nat) (env : CycleEnv) : CycleResult :=
  if !env.sourceHealthy || !env.destHealthy then
    ⟨false, [], HEALTH_BACKOFF_SECONDS, cache, scanner, persisted⟩
  else
    let r := scan_and_process_blocks scanner persisted env.latestBlock env.getLogs
    let pr := process_confirmed cache
      (fun e => relay_mint_transaction (env.relayEnv e)) r.confirmedEvents
    ⟨true, pr.2, scanInterval, pr.1, r.scanner, r.persisted⟩

/-- One step of a processor history: either an ordinary cycle, or a process
restart (fileOk is false when the state file was lost or corrupted while
the process was down; chainHeight is the source height seen at startup). -/
inductive ProcStep where
  | cycle (env : CycleEnv)
  | restart (fileOk : Bool) (chainHeight : Int)

/-- The live state carried across a processor history: the in-memory
processed_txs_cache, the scanner state, and the persisted cursor file. -/
structure ProcState where
  cache : List String
  scanner : ScannerState
  persisted : Int

/-- Applies one history step.  A restart constructs a fresh
CrossChainProcessor: the processed_txs_cache becomes a new empty set, the
scanner reloads its cursor from the state file and starts with an empty
pending_events dict; the state file itself survives. -/
def apply_step (confirmations : Int) (scanInterval : Nat)
    (st : ProcState) : ProcStep → ProcState
  | ProcStep.cycle env =>
    let r := run_cycle st.cache st.scanner st.persisted scanInterval env
    ⟨r.cache, r.scanner, r.persisted⟩
  | ProcStep.restart fileOk height =>
    let cursor := load_last_scanned_block
      (if fileOk then some (some st.persisted) else none) height
    ⟨[], ⟨cursor, [], confirmations⟩, st.persisted⟩

/-- Runs a whole processor history from an initial state. -/
def run_history (confirmations : Int) (scanInterval : Nat)
    (init : ProcState) (steps : List ProcStep) : ProcState :=
  steps.foldl (apply_step confirmations scanInterval) init

/-- Tri-state health status from src/health.py. -/
inductive HealthStatus where
  | healthy
  | unhealthy
  | unknown
deriving DecidableEq, Repr

/-- The state of a HealthChecker instance: the published status, whether
the background thread exists and is alive, and the stop event flag. -/
structure HealthChecker where
  status : HealthStatus
  threadAlive : Bool
  stopEventSet : Bool
deriving DecidableEq, Repr

/-- One iteration of HealthChecker._run_checks: the probe outcome is
supplied by the environment; a True result publishes healthy, False
publishes unhealthy, and a raised exception is caught and also publishes
unhealthy — the iteration always returns normally. -/
def run_check_once (hc : HealthChecker) (probeResult : Except Unit Bool) :
    HealthChecker :=
  match probeResult with
  | Except.ok true => ⟨HealthStatus.healthy, hc.threadAlive, hc.stopEventSet⟩
  | Except.ok false => ⟨HealthStatus.unhealthy, hc.threadAlive, hc.stopEventSet⟩
  | Except.error _ => ⟨HealthStatus.unhealthy, hc.threadAlive, hc.stopEventSet⟩

/-- HealthChecker.start: only when no live thread exists does it clear the
stop event and launch a new thread. -/
def HealthChecker.start (hc : HealthChecker) : HealthChecker :=
  if hc.threadAlive then hc
  else ⟨hc.status, true, false⟩

/-- HealthChecker.stop: only when a live thread exists does it set the stop
event and join the thread. -/
def HealthChecker.stop (hc : HealthChecker) : HealthChecker :=
  if hc.threadAlive then ⟨hc.status, false, true⟩
  else hc

/-- Concrete event originating in block 85. -/
def eventAt85 : LogEvent := ⟨"0xaaa", 85, "alice", 10⟩

/-- Concrete event originating in block 95. -/
def eventAt95 : LogEvent := ⟨"0xbbb", 95, "bob", 20⟩

/-- A relay environment whose transaction submission raises a network
error. -/
def failingRelayEnv : RelayEnv :=
  ⟨Except.ok ("alice", 10, "0xaaa"), Except.error (), Except.error ()⟩

/-- A cycle in which both endpoints are healthy, the chain is at height
100, the scan range starting at 85 yields eventAt85, and every relay
submission fails with a network error. -/
def relayFailureCycleEnv : CycleEnv :=
  ⟨true, true, 100,
   fun a _ => if a = 85 then Except.ok [eventAt85] else Except.ok [],
   fun _ => failingRelayEnv⟩

/-- A cycle in which the source endpoint health check fails. -/
def unhealthyCycleEnv : CycleEnv :=
  ⟨false, true, 100, fun _ _ => Except.ok [], fun _ => failingRelayEnv⟩

/-- A healthy cycle with no new logs, used to exercise the skip path. -/
def quietCycleEnv : CycleEnv :=
  ⟨true, true, 100, fun _ _ => Except.ok [], fun _ => failingRelayEnv⟩

/-- Claim C1: record of the code's actual behaviour at the failing input.
With threshold 12 and height 100, the pending event at block 85 is returned
as confirmed and is simultaneously deleted from pending_events, although no
terminal relay outcome exists yet — confirmation alone removes the event
from tracking, contradicting the no-silent-loss invariant. -/
theorem confirmation_alone_removes_event_from_tracking :
    check_confirmations ⟨84, [("0xaaa", eventAt85)], 12⟩ 100
      = ([eventAt85], ⟨84, [], 12⟩) := by decide

/-- Claim C3 counterexample: with cursor 50 and height 500 the scan
advances the cursor to 151, not to 150 as the claim states. -/
theorem scan_cursor_advances_to_151_not_150 :
    (scan_and_process_blocks ⟨50, [], 12⟩ 50 500
        (fun _ _ => Except.ok [])).scanner.lastScannedBlock = 151
    ∧ (scan_and_process_blocks ⟨50, [], 12⟩ 50 500
        (fun _ _ => Except.ok [])).scanner.lastScannedBlock ≠ 150 := by decide

/-- Claim C3 (amended): a scan pass with new blocks available queries the
log range from cursor+1 to min(height, cursor+101) — the chunk spans up to
101 blocks, because to_block is from_block + 100 — the outcome of the pass
depends only on the logs of that range, and on a successful fetch both the
in-memory and the persisted cursor advance to min(height, cursor+101). -/
theorem scan_covers_chunk_and_advances (s : ScannerState) (persisted latest : Int)
    (get_logs : Int → Int → Except Unit (List LogEvent)) (logs : List LogEvent)
    (hlt : s.lastScannedBlock < latest)
    (hok : get_logs (scan_from_block s.lastScannedBlock)
        (scan_to_block s.lastScannedBlock latest) = Except.ok logs) :
    scan_from_block s.lastScannedBlock = s.lastScannedBlock + 1
    ∧ scan_to_block s.lastScannedBlock latest = min latest (s.lastScannedBlock + 101)
    ∧ (scan_and_process_blocks s persisted latest get_logs).scanner.lastScannedBlock
        = min latest (s.lastScannedBlock + 101)
    ∧ (scan_and_process_blocks s persisted latest get_logs).persisted
        = min latest (s.lastScannedBlock + 101)
    ∧ ∀ g2 : Int → Int → Except Unit (List LogEvent),
        g2 (scan_from_block s.lastScannedBlock) (scan_to_block s.lastScannedBlock latest)
          = get_logs (scan_from_block s.lastScannedBlock)
              (scan_to_block s.lastScannedBlock latest) →
        scan_and_process_blocks s persisted latest g2
          = scan_and_process_blocks s persisted latest get_logs := by
  have hto : scan_to_block s.lastScannedBlock latest
      = min latest (s.lastScannedBlock + 101) := by
    have h1 : s.lastScannedBlock + 1 + 100 = s.lastScannedBlock + 101 := by omega
    simp [scan_to_block, scan_from_block, h1]
  have hcond : ¬ latest ≤ s.lastScannedBlock := by omega
  have hok2 := hok
  rw [hto] at hok2
  refine ⟨rfl, hto, ?_, ?_, ?_⟩
  · simp only [scan_and_process_blocks, if_neg hcond, hto, hok2]
  · simp only [scan_and_process_blocks, if_neg hcond, hto, hok2]
  · intro g2 hagree
    simp only [scan_and_process_blocks, if_neg hcond, hagree]

/-- Claim C3 witness: instantiation at cursor 50, height 500. -/
theorem scan_covers_chunk_and_advances_witness :
    (scan_and_process_blocks ⟨50, [], 12⟩ 50 500
        (fun _ _ => Except.ok [])).persisted = min 500 (50 + 101) :=
  (scan_covers_chunk_and_advances ⟨50, [], 12⟩ 50 500 (fun _ _ => Except.ok [])
    [] (by decide) rfl).2.2.2.1

/-- Claim C5 (amended): when the log fetch raises, the pass aborts with
the scanner state (cursor and pending_events) and the persisted cursor
unchanged, returning the empty event list. -/
theorem fetch_error_leaves_state_unchanged (s : ScannerState) (persisted latest : Int)
    (get_logs : Int → Int → Except Unit (List LogEvent)) (err : Unit)
    (herr : get_logs (scan_from_block s.lastScannedBlock)
        (scan_to_block s.lastScannedBlock latest) = Except.error err) :
    scan_and_process_blocks s persisted latest get_logs = ⟨[], s, persisted⟩ := by
  unfold scan_and_process_blocks
  split
  · rfl
  · rw [herr]

/-- Claim C5 witness: instantiation at cursor 50, height 500 with a
fetch that raises. -/
theorem fetch_error_leaves_state_unchanged_witness :
    scan_and_process_blocks ⟨50, [], 12⟩ 50 500 (fun _ _ => Except.error ())
      = ⟨[], ⟨50, [], 12⟩, 50⟩ :=
  fetch_error_leaves_state_unchanged ⟨50, [], 12⟩ 50 500
    (fun _ _ => Except.error ()) () rfl

/-- Claim C5 counterexample: the value returned to the caller after a
fetch error is the same empty list a successful scan with no events
returns — the failure is not distinguishable from a normal empty result at
the call interface. -/
theorem fetch_error_returns_plain_empty_list :
    (scan_and_process_blocks ⟨50, [], 12⟩ 50 500
        (fun _ _ => Except.error ())).confirmedEvents
      = (scan_and_process_blocks ⟨50, [], 12⟩ 50 500
        (fun _ _ => Except.ok [])).confirmedEvents := by decide

/-- Claim C8: with the state file absent or corrupt the scanner starts
from the current chain height minus one, and with a valid file carrying a
last_scanned_block value it resumes from exactly that value. -/
theorem load_cursor_fallback_and_resume :
    (∀ h : Int, load_last_scanned_block none h = h - 1)
    ∧ ∀ v h : Int, load_last_scanned_block (some (some v)) h = v :=
  ⟨fun _ => rfl, fun _ _ => rfl⟩

/-- Claim C9: a probe that raises is caught and published as unhealthy
with the check iteration returning normally, start on a running monitor
leaves the monitor unchanged, and stop on a stopped monitor leaves the
monitor unchanged. -/
theorem probe_exception_unhealthy_and_lifecycle_noops :
    (∀ hc : HealthChecker, run_check_once hc (Except.error ())
        = ⟨HealthStatus.unhealthy, hc.threadAlive, hc.stopEventSet⟩)
    ∧ (∀ hc : HealthChecker, hc.threadAlive = true → hc.start = hc)
    ∧ (∀ hc : HealthChecker, hc.threadAlive = false → hc.stop = hc) := by
  refine ⟨fun hc => rfl, fun hc h => ?_, fun hc h => ?_⟩
  · simp [HealthChecker.start, h]
  · simp [HealthChecker.stop, h]

/-- Claim C9 witness: instantiation of the two lifecycle no-ops. -/
theorem probe_lifecycle_noops_witness :
    HealthChecker.start ⟨HealthStatus.unknown, true, false⟩
        = ⟨HealthStatus.unknown, true, false⟩
    ∧ HealthChecker.stop ⟨HealthStatus.unknown, false, true⟩
        = ⟨HealthStatus.unknown, false, true⟩ :=
  ⟨probe_exception_unhealthy_and_lifecycle_noops.2.1 _ rfl,
   probe_exception_unhealthy_and_lifecycle_noops.2.2 _ rfl⟩

/-- Claim C10: relay_mint_transaction always returns a value — either the
destination tx hash or none — and it returns a hash exactly when argument
extraction succeeded, submission succeeded with that hash, and the awaited
receipt has status 1; every exception path and a status-0 receipt give
none. -/
theorem relay_total_and_success_characterisation :
    ∀ env : RelayEnv,
      (relay_mint_transaction env = none
        ∨ ∃ h, relay_mint_transaction env = some h)
      ∧ ∀ h : String, relay_mint_transaction env = some h ↔
          (∃ a, env.extractArgs = Except.ok a)
          ∧ env.submitTx = Except.ok h
          ∧ ∃ r, env.waitReceipt = Except.ok r ∧ r.status = 1 := by
  intro env
  constructor
  · cases hr : relay_mint_transaction env
    · exact Or.inl rfl
    · exact Or.inr ⟨_, rfl⟩
  · intro h
    unfold relay_mint_transaction
    rcases hx : env.extractArgs with e1 | a <;>
      rcases hs : env.submitTx with e2 | txh <;>
        rcases hw : env.waitReceipt with e3 | r <;>
          simp [hx, hs, hw]
    by_cases hst : r.status = 1 <;> simp [hst]

/-- Claim C4: a pending event is among the confirmed events of a
confirmation pass exactly when its age, current height minus originating
block, is at least the confirmations threshold; an event below the
threshold stays in pending_events. -/
theorem confirmed_iff_age_ge_threshold (s : ScannerState) (current : Int)
    (k : String) (e : LogEvent) (hmem : (k, e) ∈ s.pendingEvents) :
    (e ∈ (check_confirmations s current).1 ↔
      s.confirmations ≤ current - e.blockNumber)
    ∧ (current - e.blockNumber < s.confirmations →
        (k, e) ∈ (check_confirmations s current).2.pendingEvents) := by
  constructor
  · constructor
    · intro hin
      simp only [check_confirmations, List.mem_map, List.mem_filter,
        decide_eq_true_eq] at hin
      obtain ⟨p, ⟨_, hcond⟩, hpe⟩ := hin
      rw [← hpe]
      exact hcond
    · intro hage
      simp only [check_confirmations, List.mem_map, List.mem_filter,
        decide_eq_true_eq]
      exact ⟨(k, e), ⟨hmem, hage⟩, rfl⟩
  · intro hlt
    simp only [check_confirmations, List.mem_filter, decide_eq_true_eq]
    exact ⟨hmem, by omega⟩

/-- Claim C4 witness: with threshold 12 and height 100 the event at block
85 is confirmed in the pass and the event at block 95 stays pending. -/
theorem confirmed_iff_age_ge_threshold_witness :
    eventAt85 ∈ (check_confirmations
        ⟨84, [("0xaaa", eventAt85), ("0xbbb", eventAt95)], 12⟩ 100).1
    ∧ ("0xbbb", eventAt95) ∈ (check_confirmations
        ⟨84, [("0xaaa", eventAt85), ("0xbbb", eventAt95)], 12⟩ 100).2.pendingEvents :=
  ⟨(confirmed_iff_age_ge_threshold
      ⟨84, [("0xaaa", eventAt85), ("0xbbb", eventAt95)], 12⟩ 100
      "0xaaa" eventAt85 (by simp)).1.mpr (by decide),
   (confirmed_iff_age_ge_threshold
      ⟨84, [("0xaaa", eventAt85), ("0xbbb", eventAt95)], 12⟩ 100
      "0xbbb" eventAt95 (by simp)).2 (by decide)⟩

theorem mem_set_add_of_mem {c : List String} {x y : String} (h : x ∈ c) :
    x ∈ set_add c y := by
  unfold set_add
  split
  · exact h
  · exact List.mem_append_left _ h

theorem set_add_nodup {c : List String} {x : String} (h : c.Nodup) :
    (set_add c x).Nodup := by
  unfold set_add
  split
  · exact h
  · next hx => simp [List.nodup_append, h, hx]

theorem relay_step_cache_mono (relay : LogEvent → Option String)
    (acc : List String × List String) (e : LogEvent) {x : String}
    (hx : x ∈ acc.1) : x ∈ (relay_step relay acc e).1 := by
  unfold relay_step
  split
  · exact hx
  · cases relay e
    · exact hx
    · exact mem_set_add_of_mem hx

theorem relay_step_nodup (relay : LogEvent → Option String)
    (acc : List String × List String) (e : LogEvent)
    (h : acc.1.Nodup) : (relay_step relay acc e).1.Nodup := by
  unfold relay_step
  split
  · exact h
  · cases relay e
    · exact h
    · exact set_add_nodup h

theorem relay_step_attempts_fresh (relay : LogEvent → Option String)
    (acc : List String × List String) (e : LogEvent) {x : String}
    (hx : x ∈ acc.1) (hnx : x ∉ acc.2) : x ∉ (relay_step relay acc e).2 := by
  unfold relay_step
  split
  · exact hnx
  · next hne =>
    have hxe : x ≠ e.txHash := fun hxeq => hne (hxeq ▸ hx)
    cases relay e
    · simp [hnx, hxe]
    · simp [hnx, hxe]

theorem relay_fold_cache_mono (relay : LogEvent → Option String)
    (events : List LogEvent) (acc : List String × List String) {x : String}
    (hx : x ∈ acc.1) : x ∈ (events.foldl (relay_step relay) acc).1 := by
  induction events generalizing acc with
  | nil => exact hx
  | cons e es ih => exact ih _ (relay_step_cache_mono relay acc e hx)

theorem relay_fold_nodup (relay : LogEvent → Option String)
    (events : List LogEvent) (acc : List String × List String)
    (h : acc.1.Nodup) : (events.foldl (relay_step relay) acc).1.Nodup := by
  induction events generalizing acc with
  | nil => exact h
  | cons e es ih => exact ih _ (relay_step_nodup relay acc e h)

theorem relay_fold_attempts_fresh (relay : LogEvent → Option String)
    (events : List LogEvent) (acc : List String × List String) {x : String}
    (hx : x ∈ acc.1) (hnx : x ∉ acc.2) :
    x ∉ (events.foldl (relay_step relay) acc).2 := by
  induction events generalizing acc with
  | nil => exact hnx
  | cons e es ih =>
    exact ih _ (relay_step_cache_mono relay acc e hx)
      (relay_step_attempts_fresh relay acc e hx hnx)

theorem run_cycle_cache_nodup (cache : List String) (scanner : ScannerState)
    (persisted : Int) (scanInterval : Nat) (env : CycleEnv)
    (h : cache.Nodup) :
    (run_cycle cache scanner persisted scanInterval env).cache.Nodup := by
  unfold run_cycle
  split
  · exact h
  · exact relay_fold_nodup _ _ _ h

theorem run_history_cache_nodup (conf : Int) (interval : Nat)
    (init : ProcState) (steps : List ProcStep) (h : init.cache.Nodup) :
    (run_history conf interval init steps).cache.Nodup := by
  induction steps generalizing init with
  | nil => exact h
  | cons st ss ih =>
    apply ih
    cases st with
    | cycle env => exact run_cycle_cache_nodup _ _ _ _ _ h
    | restart fileOk height => exact List.nodup_nil

/-- Claim C2: across any history of cycles and restarts starting from a
duplicate-free ledger, the processed_txs_cache stays duplicate-free — each
source transaction identifier is recorded at most once — and within any
cycle an event whose identifier is already in the cache is skipped: no
relay is attempted for it. -/
theorem ledger_at_most_once_and_cached_skipped (conf : Int) (interval : Nat)
    (init : ProcState) (steps : List ProcStep) (hinit : init.cache.Nodup) :
    (run_history conf interval init steps).cache.Nodup
    ∧ ∀ (cache : List String) (scanner : ScannerState) (persisted : Int)
        (env : CycleEnv) (x : String), x ∈ cache →
        x ∉ (run_cycle cache scanner persisted interval env).relayAttempts := by
  refine ⟨run_history_cache_nodup conf interval init steps hinit, ?_⟩
  intro cache scanner persisted env x hx
  unfold run_cycle
  split
  · simp
  · exact relay_fold_attempts_fresh _ _ _ hx (by simp)

/-- Claim C2 witness: a concrete two-cycle history keeps the ledger
duplicate-free, and a cached hash is never re-attempted in a cycle. -/
theorem ledger_at_most_once_and_cached_skipped_witness :
    (run_history 12 15 ⟨[], ⟨84, [], 12⟩, 84⟩
        [ProcStep.cycle quietCycleEnv, ProcStep.restart true 100]).cache.Nodup
    ∧ "0xaaa" ∉ (run_cycle ["0xaaa"] ⟨84, [], 12⟩ 84 15
        quietCycleEnv).relayAttempts :=
  ⟨(ledger_at_most_once_and_cached_skipped 12 15 ⟨[], ⟨84, [], 12⟩, 84⟩
      [ProcStep.cycle quietCycleEnv, ProcStep.restart true 100] (by simp)).1,
   (ledger_at_most_once_and_cached_skipped 12 15 ⟨[], ⟨84, [], 12⟩, 84⟩
      [] (by simp)).2 ["0xaaa"] ⟨84, [], 12⟩ 84 quietCycleEnv "0xaaa" (by simp)⟩

/-- Claim C6: record of the code's actual behaviour at the failing input.
Starting from cursor 84 at height 100 with an event in block 85 whose
relay submission raises a network error: the first cycle attempts the
relay and leaves the ledger unchanged, but the event is no longer in
pending_events afterwards, and a second identical cycle attempts no relay
at all — the failed event is silently abandoned, not retried. -/
theorem failed_relay_event_abandoned :
    (run_cycle [] ⟨84, [], 12⟩ 84 15 relayFailureCycleEnv).relayAttempts = ["0xaaa"]
    ∧ (run_cycle [] ⟨84, [], 12⟩ 84 15 relayFailureCycleEnv).cache = []
    ∧ (run_cycle [] ⟨84, [], 12⟩ 84 15 relayFailureCycleEnv).scanner.pendingEvents = []
    ∧ (run_cycle (run_cycle [] ⟨84, [], 12⟩ 84 15 relayFailureCycleEnv).cache
        (run_cycle [] ⟨84, [], 12⟩ 84 15 relayFailureCycleEnv).scanner
        (run_cycle [] ⟨84, [], 12⟩ 84 15 relayFailureCycleEnv).persisted
        15 relayFailureCycleEnv).relayAttempts = [] := by decide

/-- Claim C7: when either endpoint's health check fails, the cycle
performs no scan and attempts no relay, leaves all state untouched, and
sleeps the fixed 60-second health backoff, which differs from the default
15-second poll interval. -/
theorem unhealthy_cycle_skips_work (cache : List String) (scanner : ScannerState)
    (persisted : Int) (scanInterval : Nat) (env : CycleEnv)
    (hun : env.sourceHealthy = false ∨ env.destHealthy = false) :
    run_cycle cache scanner persisted scanInterval env
      = ⟨false, [], HEALTH_BACKOFF_SECONDS, cache, scanner, persisted⟩
    ∧ HEALTH_BACKOFF_SECONDS ≠ SCAN_INTERVAL_SECONDS_DEFAULT := by
  refine ⟨?_, by decide⟩
  unfold run_cycle
  rcases hun with h | h <;> simp [h]

/-- Claim C7 witness: instantiation at a cycle whose source endpoint is
unhealthy. -/
theorem unhealthy_cycle_skips_work_witness :
    run_cycle [] ⟨84, [], 12⟩ 84 15 unhealthyCycleEnv
      = ⟨false, [], HEALTH_BACKOFF_SECONDS, [], ⟨84, [], 12⟩, 84⟩ :=
  (unhealthy_cycle_skips_work [] ⟨84, [], 12⟩ 84 15 unhealthyCycleEnv
    (Or.inl rfl)).1

end PoolsCR

